import Mathlib

/-!
Shallow embedding of the agent orchestration core of the
Python-dataops-agent repository: the agent contract
(`src/agents/base_agent.py`), the registry (`src/agents/registry.py`),
the manager (`src/agents/agent_manager.py`), and the workflow graphs the
concrete agents declare (`src/agents/metric_agent.py`,
`src/agents/table_agent.py`, `src/agents/etl_agent.py`).

Conventions of the embedding:
* wall-clock times (`time.time()` differences) are abstracted to `Nat`
  ticks; only the structural flow of the measured values matters to the
  properties proved here;
* Python `Optional[str]` is `Option String`; Python truthiness of
  strings/ints/options is made explicit via the `pyTruthy*` helpers;
* Python dicts used as string-keyed maps are association lists in which
  the first matching key wins;
* the outcome of an `await` on external work (the concrete agent's
  `process`, `asyncio.wait_for`, `asyncio.gather`) is an explicit
  inductive parameter, so the wrapper logic of the source is total and
  executable over all possible outcomes of the awaited call.
-/

namespace DataopsAgent

/-- Python truthiness of a string: `""` is falsy, everything else truthy. -/
def pyTruthyStr (s : String) : Bool := s ≠ ""

/-- Python truthiness of an `Optional[str]`: `None` and `""` are falsy. -/
def pyTruthyOptStr : Option String → Bool
  | none => false
  | some s => pyTruthyStr s

/-- Python truthiness of an int modelled as `Nat`: `0` is falsy. -/
def pyTruthyNat (n : Nat) : Bool := n ≠ 0

/-- Python `a or b` on strings: `a` when truthy, else `b` verbatim. -/
def pyOrStr (a b : String) : String := if pyTruthyStr a then a else b

/-- Python `a or b` on `Optional[str]` values. -/
def pyOrOptStr (a b : Option String) : Option String :=
  if pyTruthyOptStr a then a else b

/-- Python `a or b` on ints modelled as `Nat`. -/
def pyOrNat (a b : Nat) : Nat := if pyTruthyNat a then a else b

/-- First-match lookup in a string-keyed association list (Python dict
access `d.get(k)` for dicts built with unique keys). -/
def assocLookup {α : Type} : List (String × α) → String → Option α
  | [], _ => none
  | (k', v) :: rest, k => if k' = k then some v else assocLookup rest k

/-- `assocLookup` at the dict value type used for `extra_config`. -/
def dictLookup (l : List (String × String)) (k : String) : Option String :=
  assocLookup l k

/-- Python `{**a, **b}`: a dict holding every key of `a` and `b`, with
`b`'s value winning on common keys.  We realise it as the keys of `a`
that `b` does not bind, followed by `b`; lookups agree with the source
dict key-by-key. -/
def dictMerge (a b : List (String × String)) : List (String × String) :=
  a.filter (fun p => (dictLookup b p.1).isNone) ++ b

/-- `src/agents/base_agent.py` `AgentConfig` (dataclass).  The source's
`model_name` default carries a stray trailing comma (making it a 1-tuple
at runtime); both the tuple and the intended string are truthy and no
property proved here inspects the value, so it is modelled as the
intended string.  `openai_api_key`'s dataclass default is
`os.getenv("SILICONFLOW_API_KEY")`, an environment-dependent
`Optional[str]`, so default construction takes it as a parameter. -/
structure AgentConfig where
  name : String
  version : String
  description : String
  timeout : Nat
  max_retries : Nat
  enabled : Bool
  openai_api_key : Option String
  model_name : String
  base_url : String
  extra_config : List (String × String)
deriving Repr, DecidableEq

/-- `AgentConfig(name=n)` with every other field left at its dataclass
default (`envKey` is the value of `os.getenv("SILICONFLOW_API_KEY")`
captured when the class body was evaluated). -/
def AgentConfig.pyDefault (envKey : Option String) (name : String) : AgentConfig :=
  { name := name
    version := "1.0.0"
    description := ""
    timeout := 300
    max_retries := 3
    enabled := true
    openai_api_key := envKey
    model_name := "deepseek-ai/DeepSeek-V3.1"
    base_url := "https://api.siliconflow.cn/v1/"
    extra_config := [] }

/-- The configuration merge of `AgentRegistry.create_agent`
(`src/agents/registry.py` lines 87-100): each field except `enabled` is
`override.field or base.field` (Python truthiness), `enabled` is
`override.enabled if override.enabled is not None else base.enabled`
— and a `bool` field is never `None`, so the override always wins —
and `extra_config` is `{**base.extra_config, **override.extra_config}`. -/
def mergeConfig (base ov : AgentConfig) : AgentConfig :=
  { name := pyOrStr ov.name base.name
    version := pyOrStr ov.version base.version
    description := pyOrStr ov.description base.description
    timeout := pyOrNat ov.timeout base.timeout
    max_retries := pyOrNat ov.max_retries base.max_retries
    enabled := ov.enabled
    openai_api_key := pyOrOptStr ov.openai_api_key base.openai_api_key
    model_name := pyOrStr ov.model_name base.model_name
    base_url := pyOrStr ov.base_url base.base_url
    extra_config := dictMerge base.extra_config ov.extra_config }

/-- `AgentRegistry` (`src/agents/registry.py`): `_agents` (name →
factory) and `_agent_configs` (name → registered config) are kept in
lock-step by `register`/`unregister`, so the registry is modelled as one
association list from name to the stored default config; the factory
behaviour needed by the claims is `SimpleAgentFactory.create_agent`,
which builds an agent whose `config` is exactly the config it is
handed. -/
structure AgentRegistry where
  entries : List (String × AgentConfig)
deriving Repr

/-- Lookup of a registered config (`get_factory` / `get_config` agree on
presence because `register` writes both maps together). -/
def AgentRegistry.getConfig (reg : AgentRegistry) (name : String) : Option AgentConfig :=
  assocLookup reg.entries name

/-- `AgentRegistry.register` (lines 21-38): stores the factory and
`config or factory.get_default_config()` under `name`, overwriting any
previous entry. -/
def AgentRegistry.register (reg : AgentRegistry) (name : String)
    (factoryDefault : AgentConfig) (config : Option AgentConfig) : AgentRegistry :=
  ⟨(name, config.getD factoryDefault) :: reg.entries.filter (fun p => p.1 ≠ name)⟩

/-- `SimpleAgentFactory.get_default_config` (`src/agents/base_agent.py`
lines 255-261): name `"simple_agent"`, version `"1.0.0"`, description
`"Simple Agent"`, every other field the dataclass default. -/
def simpleFactoryDefault (envKey : Option String) : AgentConfig :=
  { AgentConfig.pyDefault envKey "simple_agent" with description := "Simple Agent" }

/-- `AgentRegistry.create_agent` (lines 77-110): unknown names yield
`None`; otherwise the stored config is merged with the override (when
given) and handed to the factory, whose produced instance carries that
merged config (`BaseAgent.__init__` stores it verbatim).  The embedding
returns the created instance's config. -/
def AgentRegistry.createAgent (reg : AgentRegistry) (name : String)
    (override : Option AgentConfig) : Option AgentConfig :=
  match reg.getConfig name with
  | none => none
  | some base =>
    match override with
    | some ov => some (mergeConfig base ov)
    | none => some base

/-- `AgentStatus` (`src/agents/base_agent.py` lines 17-23). -/
inductive AgentStatus where
  | idle
  | running
  | completed
  | failed
  | timeout
deriving Repr, DecidableEq

/-- Structured payloads carried in `AgentResponse.data`.  The only
concrete payload a claim inspects is the metric agent's
`{"metric": ..., "existing_metric": ..., "analysis": ...}` dict;
other dict payloads are modelled as raw field lists. -/
inductive Payload where
  | metricResult (finalMetric existingMetric analysis : Option (List (String × String)))
  | raw (fields : List (String × String))
deriving Repr, DecidableEq

/-- Python truthiness of a payload dict: the metric result dict always
holds its three keys, so it is always truthy; a raw dict is truthy iff
non-empty. -/
def Payload.pyTruthy : Payload → Bool
  | .metricResult _ _ _ => true
  | .raw fields => fields ≠ []

/-- A stand-in for `len(str(d))` on a payload dict: a structural size.
No property proved here depends on the numeric value, only on the
source's `if response.data else 0` guard around it. -/
def Payload.strSize : Payload → Nat
  | .metricResult f e a =>
    (f.getD []).length + (e.getD []).length + (a.getD []).length + 1
  | .raw fields => fields.length + 1

/-- `AgentResponse` (`src/agents/base_agent.py` lines 41-50).
`execution_time` (a Python float of seconds) is abstracted to `Nat`
ticks; `timestamp` keeps the source's string type with the
construction-time clock value abstracted away (its dataclass default is
`datetime.now().isoformat()`), since no claim inspects it. -/
structure AgentResponse where
  success : Bool
  data : Option Payload := none
  error : Option String := none
  session_id : String := ""
  agent_name : String := ""
  execution_time : Nat := 0
  timestamp : String := ""
deriving Repr, DecidableEq

/-- The possible outcomes of `await asyncio.wait_for(self.process(...),
timeout=...)` inside `execute_with_timeout`: the process returned a
response after `elapsed` ticks within the deadline, the deadline
expired with `elapsed` ticks measured at the `TimeoutError` handler, or
the process raised an exception rendering as `msg` after `elapsed`
ticks. -/
inductive ProcessOutcome where
  | completed (result : AgentResponse) (elapsed : Nat)
  | timedOut (elapsed : Nat)
  | raised (msg : String) (elapsed : Nat)
deriving Repr, DecidableEq

/-- `BaseAgent.execute_with_timeout` (`src/agents/base_agent.py` lines
116-183), as a function of the instance's config and current status,
the caller-supplied `session_id` kwarg (if any), the clock value used
to derive a session id (`int(time.time())` at start), and the outcome
of the awaited `process` call.  Returns the instance's status after
the call together with the returned response. -/
def executeWithTimeout (cfg : AgentConfig) (status : AgentStatus)
    (sessionArg : Option String) (now : Nat) (outcome : ProcessOutcome) :
    AgentStatus × AgentResponse :=
  if !cfg.enabled then
    (status,
     { success := false
       error := some ("Agent " ++ cfg.name ++ " 已禁用")
       agent_name := cfg.name
       session_id := sessionArg.getD "" })
  else
    -- status is set to RUNNING here; each branch below overwrites it.
    let session_id := sessionArg.getD (cfg.name ++ "_" ++ toString now)
    match outcome with
    | .completed result elapsed =>
      let result' := { result with
        execution_time := elapsed
        session_id := session_id
        agent_name := cfg.name }
      (if result.success then AgentStatus.completed else AgentStatus.failed, result')
    | .timedOut elapsed =>
      (AgentStatus.timeout,
       { success := false
         error := some ("处理超时，超过 " ++ toString cfg.timeout ++ " 秒")
         agent_name := cfg.name
         session_id := session_id
         execution_time := elapsed })
    | .raised msg elapsed =>
      (AgentStatus.failed,
       { success := false
         error := some ("处理异常: " ++ msg)
         agent_name := cfg.name
         session_id := session_id
         execution_time := elapsed })

/-- The final state returned by the metric agent's LangGraph run
(`result.get(...)` fields read by `MetricManagementAgent.process`). -/
structure MetricWorkflowState where
  success : Bool
  final_metric : Option (List (String × String))
  existing_metric : Option (List (String × String))
  analysis_result : Option (List (String × String))
deriving Repr, DecidableEq

/-- The outcome of `await self.graph.ainvoke(initial_state)`: a final
state, or an exception rendering as `msg`. -/
inductive GraphRunOutcome where
  | ok (state : MetricWorkflowState)
  | raised (msg : String)
deriving Repr, DecidableEq

/-- `MetricManagementAgent.process` (`src/agents/metric_agent.py` lines
173-209) as a function of the workflow-run outcome: on a completed run
it returns `AgentResponse(success=result.success, data={...})` — note
no `error` field is set, even when `success` is false — and on an
exception it returns a failure response carrying the exception text. -/
def metricProcess (run : GraphRunOutcome) : AgentResponse :=
  match run with
  | .ok st =>
    { success := st.success
      data := some (.metricResult st.final_metric st.existing_metric st.analysis_result) }
  | .raised msg =>
    { success := false
      error := some ("指标管理工作流异常: " ++ msg) }

/-- One entry of the manager's `_execution_history`
(`AgentManager._record_execution`, `src/agents/agent_manager.py` lines
262-272). -/
structure HistoryRecord where
  agent_name : String
  session_id : String
  success : Bool
  error : Option String
  execution_time : Nat
  timestamp : String
  data_size : Nat
deriving Repr, DecidableEq

/-- The history record built from a response: `data_size` is
`len(str(response.data)) if response.data else 0` — the string-length
measure is abstracted to `Payload.strSize` (see there). -/
def mkRecord (r : AgentResponse) : HistoryRecord :=
  { agent_name := r.agent_name
    session_id := r.session_id
    success := r.success
    error := r.error
    execution_time := r.execution_time
    timestamp := r.timestamp
    data_size :=
      match r.data with
      | some d => if d.pyTruthy then d.strSize else 0
      | none => 0 }

/-- `self._max_history` (`agent_manager.py` line 23). -/
def maxHistory : Nat := 1000

/-- The last `n` elements of a list (Python `l[-n:]` for `n > 0`). -/
def takeLast {α : Type} (n : Nat) (l : List α) : List α :=
  l.drop (l.length - n)

/-- `AgentManager._record_execution` (lines 262-278): append the
record, then truncate from the front to `maxHistory` when the cap is
exceeded. -/
def recordExecution (hist : List HistoryRecord) (r : AgentResponse) :
    List HistoryRecord :=
  if (hist ++ [mkRecord r]).length > maxHistory
  then takeLast maxHistory (hist ++ [mkRecord r])
  else hist ++ [mkRecord r]

/-- A sequence of recorded executions starting from the given history. -/
def recordMany (hist : List HistoryRecord) (rs : List AgentResponse) :
    List HistoryRecord :=
  rs.foldl recordExecution hist

/-- `AgentManager.get_execution_history` (lines 280-296): filter by
agent name when the argument is truthy, then keep the last `limit`
records when `limit` is truthy.  Both guards are Python truthiness
(`if agent_name:` / `if limit:`), so an empty-string name and a zero
limit disable their stage. -/
def getExecutionHistory (hist : List HistoryRecord)
    (agentName : Option String) (limit : Option Nat) : List HistoryRecord :=
  let filtered :=
    match agentName with
    | some n => if pyTruthyStr n then hist.filter (fun h => h.agent_name = n) else hist
    | none => hist
  match limit with
  | some l => if pyTruthyNat l then takeLast l filtered else filtered
  | none => filtered

/-- What the body of `AgentManager.execute_agent`'s `try` block amounts
to, seen from the manager: instance creation failed (`create_agent`
returned `None`), the instance ran and `execute_with_timeout` returned
a response, or an exception escaped the block rendering as `msg` with
`elapsed` ticks measured at the handler. -/
inductive ExecEvent where
  | creationFailure
  | executed (resp : AgentResponse)
  | raisedDuring (msg : String) (elapsed : Nat)
deriving Repr, DecidableEq

/-- `AgentManager.execute_agent` (`src/agents/agent_manager.py` lines
50-114) as a function of the current history, the request, the clock
value used for the derived session id, and the event the `try` block
produced.  Returns the new history and the response handed back to the
caller: every branch records exactly the response it returns and
returns it (the source has no uncaught raise path).  On creation
failure no agent is consulted — the branch synthesizes its response
from the request alone. -/
def executeAgent (hist : List HistoryRecord) (agentName : String)
    (sessionArg : Option String) (now : Nat) (ev : ExecEvent) :
    List HistoryRecord × AgentResponse :=
  let session_id := sessionArg.getD (agentName ++ "_" ++ toString now)
  match ev with
  | .creationFailure =>
    let resp : AgentResponse :=
      { success := false
        error := some ("无法创建Agent实例: " ++ agentName)
        agent_name := agentName
        session_id := session_id }
    (recordExecution hist resp, resp)
  | .executed resp => (recordExecution hist resp, resp)
  | .raisedDuring msg elapsed =>
    let resp : AgentResponse :=
      { success := false
        error := some ("Agent执行异常: " ++ msg)
        agent_name := agentName
        session_id := session_id
        execution_time := elapsed }
    (recordExecution hist resp, resp)

/-- One task descriptor of `execute_parallel`, paired with the outcome
`asyncio.gather(..., return_exceptions=True)` collected for it: the
`execute_agent` call returned a response, or it raised (captured as an
exception rendering as `msg`). -/
structure ParallelTask where
  agent_name : String
  outcome : Sum AgentResponse String
deriving Repr, DecidableEq

/-- The response `execute_parallel` places in slot `i` for a task
(lines 143-157): the task's own response, or — when gather captured an
exception — a synthesized failure tagged with session id
`parallel_{i}_{int(start_time)}`. -/
def parallelSlot (start : Nat) (i : Nat) (t : ParallelTask) : AgentResponse :=
  match t.outcome with
  | .inl r => r
  | .inr msg =>
    { success := false
      error := some ("并行任务异常: " ++ msg)
      agent_name := t.agent_name
      session_id := "parallel_" ++ toString i ++ "_" ++ toString start }

/-- The `for i, result in enumerate(results)` loop of
`execute_parallel`, starting at index `i`. -/
def executeParallelAux (start : Nat) (i : Nat) : List ParallelTask → List AgentResponse
  | [] => []
  | t :: ts => parallelSlot start i t :: executeParallelAux start (i + 1) ts

/-- `AgentManager.execute_parallel` (`src/agents/agent_manager.py`
lines 116-181): gather all `execute_agent` calls with
`return_exceptions=True` (so no task failure aborts the batch; gather
preserves argument order), then map each collected outcome to its
response slot.  `start` is `int(start_time)`. -/
def executeParallel (start : Nat) (tasks : List ParallelTask) : List AgentResponse :=
  executeParallelAux start 0 tasks

/-! ### Workflow engine graph compilation

The concrete agents declare their workflow graphs in
`_create_workflow` (`src/agents/table_agent.py` lines 85-98,
`src/agents/etl_agent.py` lines 54-82, `src/agents/metric_agent.py`
lines 144-171); the `compile` step itself is performed by the external
langgraph dependency, whose sources are not part of this repository,
so its validation is modelled from the spec below. -/

/-- The reserved start marker of a workflow graph. -/
def startMarker : String := "__start__"

/-- The reserved end marker of a workflow graph. -/
def endMarker : String := "__end__"

/-- A conditional edge: a source node, the set of outcomes its
predicate can produce, and the declared mapping from outcomes to next
nodes (or the end marker). -/
structure CondEdge where
  source : String
  outcomes : List String
  mapping : List (String × String)
deriving Repr, DecidableEq

/-- A workflow graph definition: declared nodes, unconditional edges
(sources may be the start marker, targets the end marker), and
conditional edges. -/
structure GraphDef where
  nodes : List String
  edges : List (String × String)
  condEdges : List CondEdge
deriving Repr, DecidableEq

/-- The definitional error `compile` raises on an invalid graph. -/
structure GraphDefinitionError where
  message : String
deriving Repr, DecidableEq

/-- A valid edge source: a declared node or the reserved start marker. -/
def edgeSourceOk (g : GraphDef) (s : String) : Bool :=
  g.nodes.contains s || s = startMarker

/-- A valid edge target: a declared node or the reserved end marker. -/
def edgeTargetOk (g : GraphDef) (t : String) : Bool :=
  g.nodes.contains t || t = endMarker

/-- A conditional edge is valid when its source is declared and every
outcome its predicate can produce is mapped to a valid target. -/
def condEdgeOk (g : GraphDef) (ce : CondEdge) : Bool :=
  g.nodes.contains ce.source &&
    ce.outcomes.all (fun o =>
      match assocLookup ce.mapping o with
      | some t => edgeTargetOk g t
      | none => false)

/-- Modelled from the spec: the graph validation `compile(nodes,
edges)` performs — "every edge references a declared node (or the
reserved start/end markers)", "the graph has exactly one start node",
and "unmapped outcomes are a fatal definition error … caught at
compile time".  The implementation lives in the external langgraph
library, not under `src/`. -/
def graphValid (g : GraphDef) : Bool :=
  g.edges.all (fun e => edgeSourceOk g e.1 && edgeTargetOk g e.2) &&
    g.condEdges.all (condEdgeOk g) &&
    (g.edges.filter (fun e => e.1 = startMarker)).length == 1

/-- Modelled from the spec: `compile` fails with a
`GraphDefinitionError` exactly when the definition is invalid, and
otherwise produces the compiled graph. -/
def compileGraph (g : GraphDef) : Except GraphDefinitionError GraphDef :=
  if graphValid g then Except.ok g
  else Except.error ⟨"invalid graph definition"⟩

/-- Whether compiling the graph raises a `GraphDefinitionError`. -/
def compileFails (g : GraphDef) : Bool :=
  match compileGraph g with
  | Except.error _ => true
  | Except.ok _ => false

/-- The workflow graph `TableManagementAgent._create_workflow` declares
(`src/agents/table_agent.py` lines 85-98). -/
def tableWorkflowGraph : GraphDef :=
  { nodes := ["analyze_request", "query_table", "execute_operation"]
    edges := [(startMarker, "analyze_request"),
              ("analyze_request", "query_table"),
              ("query_table", "execute_operation"),
              ("execute_operation", endMarker)]
    condEdges := [] }

/-- The workflow graph `ETLDevelopmentAgent._create_workflow` declares
(`src/agents/etl_agent.py` lines 54-82). -/
def etlWorkflowGraph : GraphDef :=
  { nodes := ["parse_request", "query_etl", "generate_etl"]
    edges := [(startMarker, "parse_request"),
              ("parse_request", "query_etl"),
              ("query_etl", "generate_etl"),
              ("generate_etl", endMarker)]
    condEdges := [] }

/-- The workflow graph `MetricManagementAgent._create_workflow`
declares (`src/agents/metric_agent.py` lines 144-171). -/
def metricWorkflowGraph : GraphDef :=
  { nodes := ["analyze_request", "query_metric", "execute_operation"]
    edges := [(startMarker, "analyze_request"),
              ("analyze_request", "query_metric"),
              ("query_metric", "execute_operation"),
              ("execute_operation", endMarker)]
    condEdges := [] }

/-- A graph with a conditional edge whose predicate can produce the
outcome `"retry"` that the mapping does not cover. -/
def unmappedOutcomeGraph : GraphDef :=
  { nodes := ["work"]
    edges := [(startMarker, "work")]
    condEdges := [{ source := "work"
                    outcomes := ["done", "retry"]
                    mapping := [("done", endMarker)] }] }

/-! ### General lemmas -/

/-- `Option` alternative with both sides strict: the first value when
present, else the second. -/
def optOr {α : Type} : Option α → Option α → Option α
  | some x, _ => some x
  | none, b => b

theorem optOr_none_left {α : Type} (b : Option α) : optOr none b = b := rfl

theorem optOr_some_left {α : Type} (x : α) (b : Option α) :
    optOr (some x) b = some x := rfl

theorem optOr_none_right {α : Type} (a : Option α) : optOr a none = a := by
  cases a <;> rfl

theorem string_length_zero_iff (s : String) : s.length = 0 ↔ s = "" := by
  constructor
  · intro h
    cases s with
    | mk data =>
      simp [String.length] at h
      simp [h]
  · intro h
    subst h
    rfl

theorem string_append_ne_empty (a b : String) (h : a ≠ "") : a ++ b ≠ "" := by
  intro hab
  apply h
  have hl : (a ++ b).length = 0 := by
    rw [hab]
    rfl
  rw [String.length_append] at hl
  exact (string_length_zero_iff a).mp (by omega)

theorem assocLookup_append {α : Type} (l₁ l₂ : List (String × α)) (k : String) :
    assocLookup (l₁ ++ l₂) k = optOr (assocLookup l₁ k) (assocLookup l₂ k) := by
  induction l₁ with
  | nil => simp [assocLookup, optOr]
  | cons p rest ih =>
    obtain ⟨k', v⟩ := p
    by_cases hk : k' = k
    · simp [assocLookup, hk, optOr]
    · simp [assocLookup, hk, ih]

theorem assocLookup_filter_unbound (a : List (String × String))
    (b : List (String × String)) (k : String) :
    assocLookup (a.filter (fun p => (assocLookup b p.1).isNone)) k =
      (if (assocLookup b k).isNone then assocLookup a k else none) := by
  induction a with
  | nil =>
    simp [assocLookup]
  | cons p rest ih =>
    obtain ⟨k', v⟩ := p
    by_cases hk : k' = k
    · subst hk
      by_cases hb : (assocLookup b k').isNone
      · simp [List.filter, hb, assocLookup, ih]
      · simp [List.filter, hb, assocLookup, ih]
    · by_cases hb : (assocLookup b k').isNone
      · simp [List.filter, hb, assocLookup, hk, ih]
      · simp [List.filter, hb, assocLookup, hk, ih]

/-- Key-by-key behaviour of the Python dict merge `{**a, **b}`: `b`'s
binding wins when present, else `a`'s is used. -/
theorem dictMerge_lookup (a b : List (String × String)) (k : String) :
    dictLookup (dictMerge a b) k = optOr (dictLookup b k) (dictLookup a k) := by
  unfold dictMerge dictLookup
  rw [assocLookup_append, assocLookup_filter_unbound]
  cases hb : assocLookup b k with
  | none => simp [hb, optOr_none_left, optOr_none_right]
  | some v => simp [hb, optOr_some_left, optOr_none_left]

theorem takeLast_length_le {α : Type} (n : Nat) (l : List α) :
    (takeLast n l).length ≤ n := by
  simp [takeLast]
  omega

theorem takeLast_of_length_le {α : Type} (n : Nat) (l : List α)
    (h : l.length ≤ n) : takeLast n l = l := by
  have : l.length - n = 0 := by omega
  simp [takeLast, this]

/-- One recorded execution never leaves the history above the cap. -/
theorem recordExecution_length_le (hist : List HistoryRecord)
    (r : AgentResponse) : (recordExecution hist r).length ≤ maxHistory := by
  unfold recordExecution
  split
  · exact takeLast_length_le _ _
  · next h =>
    simp at h ⊢
    omega

theorem recordMany_length_le (rs : List AgentResponse)
    (hist : List HistoryRecord) (h : hist.length ≤ maxHistory) :
    (recordMany hist rs).length ≤ maxHistory := by
  induction rs generalizing hist with
  | nil => simpa [recordMany]
  | cons r rest ih =>
    have := recordExecution_length_le hist r
    simpa [recordMany, List.foldl_cons] using ih (recordExecution hist r) this

/-- While the cap is not reached, recording is plain appending. -/
theorem recordMany_no_trunc (rs : List AgentResponse)
    (hist : List HistoryRecord) (h : hist.length + rs.length ≤ maxHistory) :
    recordMany hist rs = hist ++ rs.map mkRecord := by
  induction rs generalizing hist with
  | nil => simp [recordMany]
  | cons r rest ih =>
    have hstep : recordExecution hist r = hist ++ [mkRecord r] := by
      unfold recordExecution
      split
      · next hgt =>
        exfalso
        simp at hgt h
        omega
      · rfl
    have hlen' : (hist ++ [mkRecord r]).length + rest.length ≤ maxHistory := by
      simp at h ⊢
      omega
    calc recordMany hist (r :: rest)
        = recordMany (recordExecution hist r) rest := by simp [recordMany]
      _ = recordMany (hist ++ [mkRecord r]) rest := by rw [hstep]
      _ = (hist ++ [mkRecord r]) ++ rest.map mkRecord := ih _ hlen'
      _ = hist ++ (r :: rest).map mkRecord := by simp

theorem executeParallelAux_getElem (start : Nat) (ts : List ParallelTask) :
    ∀ (j i : Nat),
      (executeParallelAux start j ts)[i]? = ts[i]?.map (parallelSlot start (j + i)) := by
  induction ts with
  | nil => intro j i; simp [executeParallelAux]
  | cons t rest ih =>
    intro j i
    cases i with
    | zero => simp [executeParallelAux]
    | succ n =>
      have harith : j + 1 + n = j + (n + 1) := by omega
      simp [executeParallelAux, ih (j + 1) n, harith]

theorem executeParallelAux_length (start : Nat) (ts : List ParallelTask) :
    ∀ j : Nat, (executeParallelAux start j ts).length = ts.length := by
  induction ts with
  | nil => intro j; simp [executeParallelAux]
  | cons t rest ih => intro j; simp [executeParallelAux, ih (j + 1)]

/-! ### Concrete configurations used as witnesses -/

/-- The default config `register_metric_agent` registers for
`"metric_management"` (`src/agents/metric_agent.py` lines 675-681);
its explicit field values coincide with the dataclass defaults except
for the description.  `envKey` is taken as absent. -/
def metricDefaultConfig : AgentConfig :=
  { AgentConfig.pyDefault none "metric_management" with
    description := "指标管理Agent，提供指标的创建、更新和查询功能" }

/-! ### Claim theorems -/

/-- C1: for every execution through `execute_with_timeout` of an
enabled agent whose `process` call exceeds the configured timeout, the
status is set to TIMEOUT and the response has `success=false`, the
timeout-specific error message naming the configured timeout, and the
elapsed time measured up to cancellation — for any prior status,
session argument and clock value, and independently of anything the
underlying `process` does after the deadline (the timed-out branch of
the model consumes no data from the process). -/
theorem execute_with_timeout_deadline (cfg : AgentConfig)
    (st : AgentStatus) (sessionArg : Option String) (now elapsed : Nat)
    (h : cfg.enabled = true) :
    executeWithTimeout cfg st sessionArg now (.timedOut elapsed) =
      (AgentStatus.timeout,
       { success := false
         error := some ("处理超时，超过 " ++ toString cfg.timeout ++ " 秒")
         agent_name := cfg.name
         session_id := sessionArg.getD (cfg.name ++ "_" ++ toString now)
         execution_time := elapsed }) := by
  simp [executeWithTimeout, h]

/-- Witness for C1: the metric agent's config (timeout 300) timing out
after 7 ticks with the clock at 5. -/
theorem execute_with_timeout_deadline_witness :
    metricDefaultConfig.enabled = true ∧
    executeWithTimeout metricDefaultConfig .idle none 5 (.timedOut 7) =
      (AgentStatus.timeout,
       { success := false
         error := some "处理超时，超过 300 秒"
         agent_name := "metric_management"
         session_id := "metric_management_5"
         execution_time := 7 }) :=
  ⟨rfl, execute_with_timeout_deadline metricDefaultConfig .idle none 5 7 rfl⟩

/-- C6: executing a disabled agent returns `success=false` with a
descriptive (non-empty) error and leaves the status field exactly as
it was, whatever the `process` outcome would have been. -/
theorem execute_with_timeout_disabled (cfg : AgentConfig)
    (st : AgentStatus) (sessionArg : Option String) (now : Nat)
    (outcome : ProcessOutcome) (h : cfg.enabled = false) :
    executeWithTimeout cfg st sessionArg now outcome =
      (st,
       { success := false
         error := some ("Agent " ++ cfg.name ++ " 已禁用")
         agent_name := cfg.name
         session_id := sessionArg.getD "" }) ∧
    ("Agent " ++ cfg.name ++ " 已禁用") ≠ "" := by
  constructor
  · simp [executeWithTimeout, h]
  · exact string_append_ne_empty ("Agent " ++ cfg.name) " 已禁用"
      (string_append_ne_empty "Agent " cfg.name (by decide))

/-- Witness for C6: a disabled metric agent, from the `completed`
status, with a `process` outcome that would have succeeded. -/
theorem execute_with_timeout_disabled_witness :
    executeWithTimeout { metricDefaultConfig with enabled := false }
        .completed (some "s1") 5 (.completed { success := true } 2) =
      (AgentStatus.completed,
       { success := false
         error := some "Agent metric_management 已禁用"
         agent_name := "metric_management"
         session_id := "s1" }) :=
  (execute_with_timeout_disabled { metricDefaultConfig with enabled := false }
    .completed (some "s1") 5 (.completed { success := true } 2) rfl).1

/-- C2: `execute_parallel` returns exactly one response per task, the
`i`-th response is determined by the `i`-th task alone (so input order
is preserved regardless of completion order and no task's failure
affects a sibling's slot), and a task whose `execute_agent` call raised
gets a synthesized failure response with the synthesized session id
`parallel_{i}_{start}`. -/
theorem execute_parallel_slots (start : Nat) (tasks : List ParallelTask) :
    (executeParallel start tasks).length = tasks.length ∧
    (∀ i : Nat,
      (executeParallel start tasks)[i]? = (tasks[i]?).map (parallelSlot start i)) ∧
    (∀ (i : Nat) (name msg : String),
      tasks[i]? = some { agent_name := name, outcome := .inr msg } →
      (executeParallel start tasks)[i]? = some
        { success := false
          error := some ("并行任务异常: " ++ msg)
          agent_name := name
          session_id := "parallel_" ++ toString i ++ "_" ++ toString start }) ∧
    (∀ (tasks' : List ParallelTask) (i : Nat), tasks[i]? = tasks'[i]? →
      (executeParallel start tasks)[i]? = (executeParallel start tasks')[i]?) := by
  refine ⟨executeParallelAux_length start tasks 0, ?_, ?_, ?_⟩
  · intro i
    simpa [executeParallel] using executeParallelAux_getElem start tasks 0 i
  · intro i name msg h
    have hg := executeParallelAux_getElem start tasks 0 i
    simp only [Nat.zero_add] at hg
    simp only [executeParallel]
    rw [hg, h]
    rfl
  · intro tasks' i h
    have h1 := executeParallelAux_getElem start tasks 0 i
    have h2 := executeParallelAux_getElem start tasks' 0 i
    simp only [Nat.zero_add] at h1 h2
    simp only [executeParallel]
    rw [h1, h2, h]

/-- A parallel batch of three tasks in which the middle task's
`execute_agent` call raised. -/
def parallelTasksW : List ParallelTask :=
  [{ agent_name := "metric_management"
     outcome := .inl { success := true, agent_name := "metric_management", session_id := "a" } },
   { agent_name := "etl_development", outcome := .inr "boom" },
   { agent_name := "table_management"
     outcome := .inl { success := true, agent_name := "table_management", session_id := "c" } }]

/-- Witness for C2: three tasks where task 1 raises; the batch still
yields three slots, slot 1 holds the synthesized failure and slots 0
and 2 hold their own results. -/
theorem execute_parallel_slots_witness :
    (executeParallel 9 parallelTasksW).length = 3 ∧
    (executeParallel 9 parallelTasksW)[1]? = some
      { success := false
        error := some "并行任务异常: boom"
        agent_name := "etl_development"
        session_id := "parallel_1_9" } ∧
    (executeParallel 9 parallelTasksW)[0]? = some
      { success := true, agent_name := "metric_management", session_id := "a" } := by
  refine ⟨?_, ?_, ?_⟩
  · simpa using (execute_parallel_slots 9 parallelTasksW).1
  · exact (execute_parallel_slots 9 parallelTasksW).2.2.1 1
      "etl_development" "boom" rfl
  · rw [(execute_parallel_slots 9 parallelTasksW).2.1 0]
    rfl

/-- C4: starting from an empty history, any sequence of recorded
executions leaves at most `maxHistory` (1000) records; while the cap
is not exceeded the history is exactly the records in insertion order,
and after `maxHistory + 1` insertions it is those records with exactly
the oldest one dropped from the front (so the newest is present and
order is preserved). -/
theorem record_execution_bounded (rs : List AgentResponse) :
    (recordMany [] rs).length ≤ maxHistory ∧
    (rs.length ≤ maxHistory → recordMany [] rs = rs.map mkRecord) ∧
    (rs.length = maxHistory + 1 →
      recordMany [] rs = (rs.map mkRecord).drop 1) := by
  refine ⟨recordMany_length_le rs [] (by simp), ?_, ?_⟩
  · intro h
    simpa using recordMany_no_trunc rs [] (by simpa)
  · intro h
    have hne : rs ≠ [] := by
      intro h0
      subst h0
      simp [maxHistory] at h
    have hsplit := List.dropLast_append_getLast hne
    have hlen : rs.dropLast.length = maxHistory := by
      have := List.length_dropLast rs
      omega
    have hmap : rs.map mkRecord =
        rs.dropLast.map mkRecord ++ [mkRecord (rs.getLast hne)] := by
      conv_lhs => rw [← hsplit]
      simp
    have hlr : (rs.map mkRecord).length = maxHistory + 1 := by simp [h]
    have hdrop : (rs.map mkRecord).length - maxHistory = 1 := by omega
    calc recordMany [] rs
        = recordMany [] (rs.dropLast ++ [rs.getLast hne]) := by rw [hsplit]
      _ = recordExecution (recordMany [] rs.dropLast) (rs.getLast hne) := by
          simp [recordMany, List.foldl_append]
      _ = recordExecution (rs.dropLast.map mkRecord) (rs.getLast hne) := by
          rw [recordMany_no_trunc rs.dropLast [] (by simp [hlen])]
          simp
      _ = takeLast maxHistory
            (rs.dropLast.map mkRecord ++ [mkRecord (rs.getLast hne)]) := by
          unfold recordExecution
          rw [if_pos]
          simp
          omega
      _ = (rs.map mkRecord).drop 1 := by
          rw [← hmap]
          unfold takeLast
          rw [hdrop]

/-- Witness for C4: 1001 identical recorded responses; the theorem's
hypotheses are discharged at this input. -/
theorem record_execution_bounded_witness :
    (recordMany [] (List.replicate (maxHistory + 1) { success := true })).length
        ≤ maxHistory ∧
    recordMany [] (List.replicate (maxHistory + 1) { success := true }) =
      ((List.replicate (maxHistory + 1)
          ({ success := true } : AgentResponse)).map mkRecord).drop 1 :=
  ⟨(record_execution_bounded _).1,
   (record_execution_bounded _).2.2 (by simp)⟩

/-- C5: `execute_agent` always returns a response (the model is a total
function, mirroring that every path of the source returns), and in
every case — normal result, instance-creation failure, or an exception
inside the try block — the new history is exactly the bounded append
of the returned response to the old history; on instance-creation
failure the returned response is the synthesized failure (success
false and a non-empty error naming the agent), produced without
consulting any agent instance. -/
theorem execute_agent_records (hist : List HistoryRecord)
    (agentName : String) (sessionArg : Option String) (now : Nat)
    (ev : ExecEvent) :
    (executeAgent hist agentName sessionArg now ev).1 =
      recordExecution hist (executeAgent hist agentName sessionArg now ev).2 ∧
    (ev = .creationFailure →
      (executeAgent hist agentName sessionArg now ev).2 =
        { success := false
          error := some ("无法创建Agent实例: " ++ agentName)
          agent_name := agentName
          session_id := sessionArg.getD (agentName ++ "_" ++ toString now) } ∧
      ("无法创建Agent实例: " ++ agentName) ≠ "") := by
  constructor
  · cases ev <;> rfl
  · intro h
    subst h
    exact ⟨rfl, string_append_ne_empty "无法创建Agent实例: " agentName (by decide)⟩

/-- Witness for C5: a creation failure for an unregistered name on an
empty history records exactly the synthesized failure response. -/
theorem execute_agent_records_witness :
    (executeAgent [] "ghost_agent" none 4 .creationFailure).1 =
      recordExecution [] (executeAgent [] "ghost_agent" none 4 .creationFailure).2 ∧
    (executeAgent [] "ghost_agent" none 4 .creationFailure).2.success = false ∧
    (executeAgent [] "ghost_agent" none 4 .creationFailure).2.error =
      some "无法创建Agent实例: ghost_agent" := by
  have h := execute_agent_records [] "ghost_agent" none 4 .creationFailure
  refine ⟨h.1, ?_, ?_⟩
  · rw [(h.2 rfl).1]
  · rw [(h.2 rfl).1]
    rfl

/-- C10: `get_execution_history` filters by agent name (in insertion
order — the filtered list is a sublist of the history), and truncates
to the last `limit` records only when `limit` is truthy: `limit=0`
returns the entire filtered history, exactly like passing no limit. -/
theorem get_execution_history_limit (hist : List HistoryRecord)
    (n : String) (l : Nat) (hn : n ≠ "") :
    getExecutionHistory hist (some n) (some 0) =
        hist.filter (fun h => h.agent_name = n) ∧
    getExecutionHistory hist (some n) none =
        hist.filter (fun h => h.agent_name = n) ∧
    getExecutionHistory hist none (some 0) = hist ∧
    (l ≠ 0 → getExecutionHistory hist (some n) (some l) =
        takeLast l (hist.filter (fun h => h.agent_name = n))) ∧
    (hist.filter (fun h => h.agent_name = n)).Sublist hist := by
  refine ⟨?_, ?_, ?_, ?_, List.filter_sublist hist⟩
  · simp [getExecutionHistory, pyTruthyStr, pyTruthyNat, hn]
  · simp [getExecutionHistory, pyTruthyStr, hn]
  · simp [getExecutionHistory, pyTruthyNat]
  · intro hl
    simp [getExecutionHistory, pyTruthyStr, pyTruthyNat, hn, hl]

/-- A three-record history over two agents. -/
def histW : List HistoryRecord :=
  [{ agent_name := "metric_management", session_id := "s1", success := true
     error := none, execution_time := 1, timestamp := "", data_size := 0 },
   { agent_name := "etl_development", session_id := "s2", success := false
     error := some "e", execution_time := 2, timestamp := "", data_size := 0 },
   { agent_name := "metric_management", session_id := "s3", success := true
     error := none, execution_time := 3, timestamp := "", data_size := 0 }]

/-- Witness for C10: on a three-record history, `limit=0` yields both
matching records while `limit=1` yields only the later one. -/
theorem get_execution_history_limit_witness :
    getExecutionHistory histW (some "metric_management") (some 0) =
      [histW.get ⟨0, by decide⟩, histW.get ⟨2, by decide⟩] ∧
    getExecutionHistory histW (some "metric_management") (some 1) =
      [histW.get ⟨2, by decide⟩] := by
  have h := get_execution_history_limit histW "metric_management" 1 (by decide)
  constructor
  · rw [h.1]
    rfl
  · rw [h.2.2.2.1 (by decide)]
    rfl

/-- A registered default config whose timeout and enabled flag differ
from the dataclass defaults, plus two extra-config bindings. -/
def strictDefaultConfig : AgentConfig :=
  { AgentConfig.pyDefault none "metric_management" with
    timeout := 600
    enabled := false
    extra_config := [("k1", "b1"), ("k2", "b2")] }

/-- A registry holding `strictDefaultConfig` under its name. -/
def regStrict : AgentRegistry :=
  AgentRegistry.register ⟨[]⟩ "metric_management" (simpleFactoryDefault none)
    (some strictDefaultConfig)

/-- An override constructed as `AgentConfig(name="metric_management")`:
only the name is set, every other field is the dataclass default. -/
def overrideOnlyName : AgentConfig :=
  AgentConfig.pyDefault none "metric_management"

/-- C3 counterexample: with default `D = strictDefaultConfig` (timeout
600, enabled false) and an override `O` that sets only `name`,
`create_agent` yields timeout 300 and enabled true — the fields not set
in `O` did not keep `D`'s values, because the merge reads `O`'s
dataclass defaults (300, True), not `D`, for non-overridden fields. -/
theorem create_agent_merge_counterexample :
    strictDefaultConfig.timeout = 600 ∧
    strictDefaultConfig.enabled = false ∧
    overrideOnlyName = AgentConfig.pyDefault none "metric_management" ∧
    (regStrict.createAgent "metric_management" (some overrideOnlyName)).map
        AgentConfig.timeout = some 300 ∧
    (regStrict.createAgent "metric_management" (some overrideOnlyName)).map
        AgentConfig.enabled = some true :=
  ⟨rfl, rfl, rfl, rfl, rfl⟩

/-- C3 amended: the merge in `create_agent` is per-field with Python
truthiness — each field except `enabled` takes the override's value
when that value is truthy (non-empty / non-zero) and the registered
default's value otherwise, `enabled` is taken unconditionally from the
override (its `is not None` guard never fires for a bool), and the
`extra_config` maps merge key-by-key with the override's keys
winning. -/
theorem create_agent_merge_amended (reg : AgentRegistry) (N : String)
    (base ov : AgentConfig) (h : reg.getConfig N = some base) :
    reg.createAgent N (some ov) = some (mergeConfig base ov) ∧
    (mergeConfig base ov).name = (if ov.name ≠ "" then ov.name else base.name) ∧
    (mergeConfig base ov).version =
      (if ov.version ≠ "" then ov.version else base.version) ∧
    (mergeConfig base ov).description =
      (if ov.description ≠ "" then ov.description else base.description) ∧
    (mergeConfig base ov).timeout =
      (if ov.timeout ≠ 0 then ov.timeout else base.timeout) ∧
    (mergeConfig base ov).max_retries =
      (if ov.max_retries ≠ 0 then ov.max_retries else base.max_retries) ∧
    (mergeConfig base ov).enabled = ov.enabled ∧
    (mergeConfig base ov).openai_api_key =
      (if pyTruthyOptStr ov.openai_api_key then ov.openai_api_key
       else base.openai_api_key) ∧
    (mergeConfig base ov).model_name =
      (if ov.model_name ≠ "" then ov.model_name else base.model_name) ∧
    (mergeConfig base ov).base_url =
      (if ov.base_url ≠ "" then ov.base_url else base.base_url) ∧
    ∀ k, dictLookup (mergeConfig base ov).extra_config k =
      optOr (dictLookup ov.extra_config k) (dictLookup base.extra_config k) := by
  refine ⟨?_, ?_, ?_, ?_, ?_, ?_, rfl, rfl, ?_, ?_, ?_⟩
  · simp [AgentRegistry.createAgent, h]
  · simp [mergeConfig, pyOrStr, pyTruthyStr]
  · simp [mergeConfig, pyOrStr, pyTruthyStr]
  · simp [mergeConfig, pyOrStr, pyTruthyStr]
  · simp [mergeConfig, pyOrNat, pyTruthyNat]
  · simp [mergeConfig, pyOrNat, pyTruthyNat]
  · simp [mergeConfig, pyOrStr, pyTruthyStr]
  · simp [mergeConfig, pyOrStr, pyTruthyStr]
  · intro k
    exact dictMerge_lookup base.extra_config ov.extra_config k

/-- An override setting the name and one extra-config key. -/
def overrideWithExtra : AgentConfig :=
  { overrideOnlyName with extra_config := [("k2", "ov2")] }

/-- Witness for the C3 amended claim: at the concrete registry, the
override's extra key wins while the default's other key survives. -/
theorem create_agent_merge_amended_witness :
    regStrict.createAgent "metric_management" (some overrideWithExtra) =
      some (mergeConfig strictDefaultConfig overrideWithExtra) ∧
    dictLookup (mergeConfig strictDefaultConfig overrideWithExtra).extra_config
      "k2" = some "ov2" ∧
    dictLookup (mergeConfig strictDefaultConfig overrideWithExtra).extra_config
      "k1" = some "b1" := by
  have h := create_agent_merge_amended regStrict "metric_management"
    strictDefaultConfig overrideWithExtra rfl
  have hx := h.2.2.2.2.2.2.2.2.2.2
  refine ⟨h.1, ?_, ?_⟩
  · rw [hx "k2"]
    rfl
  · rw [hx "k1"]
    rfl

/-- A name registered through `register_class` without an explicit
config, so the stored config is `SimpleAgentFactory`'s default. -/
def regNoConfig : AgentRegistry :=
  AgentRegistry.register ⟨[]⟩ "my_agent" (simpleFactoryDefault none) none

/-- C7 counterexample: `create_agent("my_agent")` on a name registered
without an explicit config returns an instance whose `config.name` is
`"simple_agent"` — the factory default's name — not the registered
name. -/
theorem create_agent_name_counterexample :
    (regNoConfig.createAgent "my_agent" none).map AgentConfig.name =
      some "simple_agent" ∧
    "simple_agent" ≠ "my_agent" :=
  ⟨rfl, by decide⟩

/-- C7 amended: `create_agent(N)` with no override returns an instance
carrying, unchanged, the config stored at registration (the explicit
config when one was given, else the factory's default config); its
`config.name` equals `N` exactly when that stored config's name is `N`
— the registry never rewrites names to match the registration key. -/
theorem create_agent_name_amended (reg : AgentRegistry) (N : String)
    (c : AgentConfig) (h : reg.getConfig N = some c) :
    reg.createAgent N none = some c ∧
    ((reg.createAgent N none).map AgentConfig.name = some N ↔ c.name = N) := by
  have h1 : reg.createAgent N none = some c := by
    simp [AgentRegistry.createAgent, h]
  refine ⟨h1, ?_⟩
  rw [h1]
  simp

/-- The registry as the repository builds it for the metric agent: the
explicit config's name matches the registration key. -/
def regMetric : AgentRegistry :=
  AgentRegistry.register ⟨[]⟩ "metric_management" (simpleFactoryDefault none)
    (some metricDefaultConfig)

/-- Witness for the C7 amended claim: the repository's own
`metric_management` registration stores a config whose name matches,
so `create_agent` returns that name. -/
theorem create_agent_name_amended_witness :
    regMetric.createAgent "metric_management" none = some metricDefaultConfig ∧
    (regMetric.createAgent "metric_management" none).map AgentConfig.name =
      some "metric_management" := by
  have h := create_agent_name_amended regMetric "metric_management"
    metricDefaultConfig rfl
  exact ⟨h.1, h.2.mpr rfl⟩

/-- The response the full execution path hands back when the metric
workflow runs to completion with `success=False` (for example an
update request whose target metric does not exist): the workflow
result is passed through `execute_with_timeout` unchanged apart from
timing and identity fields. -/
def metricFailureResponse : AgentResponse :=
  (executeWithTimeout metricDefaultConfig .idle none 0
    (.completed (metricProcess (.ok ⟨false, none, none, none⟩)) 5)).2

/-- C8 counterexample: the envelope invariant fails — a response with
`success=false` and no error at all is returned by
`execute_with_timeout` when the metric agent's workflow completes
unsuccessfully, because `MetricManagementAgent.process` sets no
`error` field on that path. -/
theorem response_envelope_counterexample :
    metricFailureResponse.success = false ∧
    metricFailureResponse.error = none :=
  ⟨rfl, rfl⟩

/-- C8 amended: every failure response the core itself synthesizes —
disabled agent, deadline exceeded, uncaught `process` exception,
instance-creation failure — and the metric agent's own exception path
carries `success=false` together with a populated, non-empty error
string; but the invariant does not extend to `process` results passed
through `execute_with_timeout`, which may carry `success=false` with
no error (see the counterexample). -/
theorem response_envelope_amended (cfgD cfgE : AgentConfig)
    (st : AgentStatus) (sessionArg : Option String) (now elapsed : Nat)
    (msg agentName : String) (hist : List HistoryRecord)
    (outcome : ProcessOutcome)
    (hd : cfgD.enabled = false) (he : cfgE.enabled = true) :
    ((executeWithTimeout cfgD st sessionArg now outcome).2.success = false ∧
      ∃ e, (executeWithTimeout cfgD st sessionArg now outcome).2.error = some e ∧
        e ≠ "") ∧
    ((executeWithTimeout cfgE st sessionArg now (.timedOut elapsed)).2.success
        = false ∧
      ∃ e, (executeWithTimeout cfgE st sessionArg now
        (.timedOut elapsed)).2.error = some e ∧ e ≠ "") ∧
    ((executeWithTimeout cfgE st sessionArg now
        (.raised msg elapsed)).2.success = false ∧
      ∃ e, (executeWithTimeout cfgE st sessionArg now
        (.raised msg elapsed)).2.error = some e ∧ e ≠ "") ∧
    ((metricProcess (.raised msg)).success = false ∧
      ∃ e, (metricProcess (.raised msg)).error = some e ∧ e ≠ "") ∧
    ((executeAgent hist agentName sessionArg now .creationFailure).2.success
        = false ∧
      ∃ e, (executeAgent hist agentName sessionArg now
        .creationFailure).2.error = some e ∧ e ≠ "") := by
  refine ⟨⟨?_, ?_⟩, ⟨?_, ?_⟩, ⟨?_, ?_⟩, ⟨?_, ?_⟩, ⟨?_, ?_⟩⟩
  · simp [executeWithTimeout, hd]
  · refine ⟨"Agent " ++ cfgD.name ++ " 已禁用", by simp [executeWithTimeout, hd], ?_⟩
    exact string_append_ne_empty ("Agent " ++ cfgD.name) " 已禁用"
      (string_append_ne_empty "Agent " cfgD.name (by decide))
  · simp [executeWithTimeout, he]
  · refine ⟨"处理超时，超过 " ++ toString cfgE.timeout ++ " 秒",
      by simp [executeWithTimeout, he], ?_⟩
    exact string_append_ne_empty ("处理超时，超过 " ++ toString cfgE.timeout) " 秒"
      (string_append_ne_empty "处理超时，超过 " (toString cfgE.timeout) (by decide))
  · simp [executeWithTimeout, he]
  · refine ⟨"处理异常: " ++ msg, by simp [executeWithTimeout, he], ?_⟩
    exact string_append_ne_empty "处理异常: " msg (by decide)
  · rfl
  · exact ⟨"指标管理工作流异常: " ++ msg, rfl,
      string_append_ne_empty "指标管理工作流异常: " msg (by decide)⟩
  · rfl
  · exact ⟨"无法创建Agent实例: " ++ agentName, rfl,
      string_append_ne_empty "无法创建Agent实例: " agentName (by decide)⟩

/-- The metric agent's config with the enabled flag cleared. -/
def metricDisabledConfig : AgentConfig :=
  { metricDefaultConfig with enabled := false }

/-- Witness for the C8 amended claim: the disabled-agent and timeout
clauses instantiated at the metric agent's config. -/
theorem response_envelope_amended_witness :
    ((executeWithTimeout metricDisabledConfig .idle none 3
        (.timedOut 7)).2.success = false ∧
      ∃ e, (executeWithTimeout metricDisabledConfig .idle none 3
        (.timedOut 7)).2.error = some e ∧ e ≠ "") ∧
    ((executeWithTimeout metricDefaultConfig .idle none 3
        (.timedOut 7)).2.success = false ∧
      ∃ e, (executeWithTimeout metricDefaultConfig .idle none 3
        (.timedOut 7)).2.error = some e ∧ e ≠ "") :=
  ⟨(response_envelope_amended metricDisabledConfig metricDefaultConfig .idle
      none 3 7 "boom" "ghost_agent" [] (.timedOut 7) rfl rfl).1,
   (response_envelope_amended metricDisabledConfig metricDefaultConfig .idle
      none 3 7 "boom" "ghost_agent" [] (.timedOut 7) rfl rfl).2.1⟩

/-- C9 (modelled from the spec — the `compile` implementation is the
external langgraph dependency, not part of this repository):
compilation fails with a `GraphDefinitionError` exactly when the
definition is invalid — an edge endpoint is neither a declared node
nor a reserved marker, a conditional-edge outcome is unmapped, or the
graph does not have exactly one start edge — this is a synchronous
definitional check, not a runtime failure response; and the concrete
graphs the agents declare in `_create_workflow` all compile. -/
theorem workflow_compile_validation (g : GraphDef) :
    (compileFails g = true ↔ graphValid g = false) ∧
    (graphValid g = true ↔
      ((∀ e ∈ g.edges, edgeSourceOk g e.1 = true ∧ edgeTargetOk g e.2 = true) ∧
       (∀ ce ∈ g.condEdges, condEdgeOk g ce = true) ∧
       (g.edges.filter (fun e => e.1 = startMarker)).length = 1)) ∧
    compileFails tableWorkflowGraph = false ∧
    compileFails etlWorkflowGraph = false ∧
    compileFails metricWorkflowGraph = false ∧
    compileFails unmappedOutcomeGraph = true := by
  refine ⟨?_, ?_, rfl, rfl, rfl, rfl⟩
  · cases hv : graphValid g <;> simp [compileFails, compileGraph, hv]
  · simp [graphValid, List.all_eq_true, Bool.and_eq_true, and_assoc]

end DataopsAgent
